import Mathlib

/-!
Verification development for the message-routing core of the tg-chatbot
repository (`src/core.ts`, `src/modules/*.module.ts`).

The TypeScript source is shallowly embedded: the mutable `MessageContext`
object becomes explicit state passing, `async` functions that may throw or
reject become `Except String` computations, and each call site of the
enhanced logger inside `Core.handleMessage` becomes an explicit fault point
(`LogSite`), so that the try/catch structure of the source can be analysed
faithfully.  Modules are modelled per the ownership boundary of the design
(modules read the context but never write it; the concrete modules in the
repository — Trading, Help, AI — indeed never write their `_context`
parameter).
-/

/-- Role of one conversation turn (`role: 'user' | 'assistant'`). -/
inductive Role where
  | user
  | assistant
deriving DecidableEq, Repr

/-- `ConversationMessage` from `src/types`: one turn of the conversation.
`timestamp` is `none` until `addToHistory` stamps it (`message.timestamp = new Date()`). -/
structure ConversationMessage where
  role : Role
  content : String
  timestamp : Option Nat
deriving DecidableEq, Repr

/-- `MessageContext`: the per-conversation context object passed to
`Core.handleMessage`.  `core` and `logger` model the self/logger references
installed by the router (lines 109-110 of `core.ts`); `history` is `none`
when the caller never supplied the field (created by `addToHistory`).
`platform`, `correlationId` and `metadata` stand for the caller-supplied
fields the router only reads. -/
structure MessageContext where
  chatId : Int
  userId : Int
  platform : String
  correlationId : Option String
  metadata : String
  history : Option (List ConversationMessage)
  core : Option Unit
  logger : Option Unit
deriving DecidableEq, Repr

/-- `MAX_HISTORY_LENGTH` of `Core` (line 22 of `core.ts`). -/
def MAX_HISTORY_LENGTH : Nat := 20

/-- `Core.addToHistory` (lines 206-220 of `core.ts`): create the history
array if absent, stamp the message, push it, and when the length exceeds
`MAX_HISTORY_LENGTH` keep the most recent entries (`slice(-MAX_HISTORY_LENGTH)`). -/
def addToHistory (context : MessageContext) (message : ConversationMessage)
    (now : Nat) : MessageContext :=
  let history := context.history.getD []
  let message := { message with timestamp := some now }
  let history := history ++ [message]
  let history :=
    if history.length > MAX_HISTORY_LENGTH then
      history.drop (history.length - MAX_HISTORY_LENGTH)
    else history
  { context with history := some history }

/-- A registered module as the router sees it (`BaseModuleInterface`):
`canHandle` and `handle` are async and may throw/reject, modelled by
`Except String`. -/
structure RModule where
  name : String
  description : String
  priority : Int
  canHandle : String → MessageContext → Except String Bool
  handle : String → MessageContext → Except String String

/-- The logging call sites inside `Core.handleMessage`, in source order.
Each is a potential fault point: a hosted logger call can throw, and where
that exception lands depends on the try/catch nesting of the source.  The
first three sites run before the `try` at line 126; the
`routing`/`execution`/`logCommand` sites run inside the per-module `try`
(lines 129-166); `catchErrorLog` stands for the `logger.error` /
`enhancedLogger.error` pair inside the per-module `catch` itself (lines
168-169), so a throw there escapes the per-module catch and lands in the
outer catch; the `fallback` sites run inside the outer `try` after the scan
has exhausted (lines 184-185). -/
inductive LogSite where
  | startTimerMessage
  | startTimerRouting
  | preLoopLog
  | routingEndTimer
  | routingLog
  | executionStartTimer
  | executionEndTimer
  | totalEndTimer
  | logCommandCall
  | catchErrorLog
  | fallbackEndTimer
  | fallbackWarn
deriving DecidableEq, Repr

/-- The normal run: no logger call throws. -/
def noFault : LogSite → Bool := fun _ => false

/-- How the dispatch loop of `Core.handleMessage` can end: a module
produced a response (`return response` at line 165), the loop ran out of
modules, or an exception thrown by the per-module `catch` block itself
(lines 168-169) escaped the loop towards the outer catch at line 197. -/
inductive ScanOutcome where
  | handled : String → ScanOutcome
  | exhausted : ScanOutcome
  | escaped : ScanOutcome
deriving DecidableEq, Repr

/-- The module scan of `Core.handleMessage` (lines 128-178 of `core.ts`).
Per module, the inner `try` covers `canHandle`, the logger calls around it,
`handle`, the assistant `addToHistory`, and the completion logging; any
throw inside it is caught at line 167, whereupon the catch block logs the
fault (lines 168-169) — if that logging itself throws, the exception leaves
the loop (`.escaped`), otherwise the loop continues with the next module.
A predicate that merely returns false skips the module without entering the
catch.  The returned context carries the mutations performed so far. -/
def scanModules (F : LogSite → Bool) (modules : List RModule) (text : String)
    (now : Nat) (context : MessageContext) : ScanOutcome × MessageContext :=
  match modules with
  | [] => (.exhausted, context)
  | module :: rest =>
    match module.canHandle text context with
    | .error _ =>
      if F .catchErrorLog then (.escaped, context)
      else scanModules F rest text now context
    | .ok false => scanModules F rest text now context
    | .ok true =>
      -- endTimer (131), info (133), startTimer (142): a throw here is
      -- caught by the inner catch, so the module is skipped.
      if F .routingEndTimer || F .routingLog || F .executionStartTimer then
        (if F .catchErrorLog then (.escaped, context)
         else scanModules F rest text now context)
      else
        match module.handle text context with
        | .error _ =>
          if F .catchErrorLog then (.escaped, context)
          else scanModules F rest text now context
        | .ok response =>
          -- endTimer (144) throwing skips the module before the append.
          if F .executionEndTimer then
            (if F .catchErrorLog then (.escaped, context)
             else scanModules F rest text now context)
          else
            let context :=
              addToHistory context
                { role := .assistant, content := response, timestamp := none } now
            -- endTimer (150) / logCommand (151) throwing is still caught by
            -- the inner catch: the assistant entry stays pushed, and the
            -- catch logging decides whether the loop continues or escapes.
            if F .totalEndTimer || F .logCommandCall then
              (if F .catchErrorLog then (.escaped, context)
               else scanModules F rest text now context)
            else (.handled response, context)

/-- The fixed no-match fallback string (line 181 of `core.ts`). -/
def fallbackMessage : String :=
  "🤔 I\x27m not sure how to help with that. Try /help for available commands."

/-- The fixed outer-catch error string (line 199 of `core.ts`). -/
def coreErrorMessage : String :=
  "❌ Sorry, I encountered an error processing your message."

/-- The context as the modules see it: `context.core = this`,
`context.logger = enhancedLogger` (lines 109-110), then the user message is
appended to the history (line 113). -/
def ctxPrepared (context : MessageContext) (text : String) (now : Nat) :
    MessageContext :=
  addToHistory { context with core := some (), logger := some () }
    { role := .user, content := text, timestamp := none } now

/-- `Core.handleMessage` (lines 97-201 of `core.ts`).  The logger calls at
lines 105-106 run before the context is touched and their exceptions
propagate; the `info` at line 116 runs after the user append and before the
`try`, so its exception also propagates; exceptions inside the outer `try`
that escape the per-module `try` — a throw from the per-module catch's own
logging (lines 168-169, the `.escaped` scan outcome) or from the fallback
bookkeeping (lines 184-185) — are converted by the outer catch into a fixed
error string, returned without any further history append. -/
def handleMessage (F : LogSite → Bool) (modules : List RModule) (now : Nat)
    (text : String) (context : MessageContext) :
    Except String (String × MessageContext) :=
  if F .startTimerMessage || F .startTimerRouting then .error "logger threw"
  else
    let context := ctxPrepared context text now
    if F .preLoopLog then .error "logger threw"
    else
      match scanModules F modules text now context with
      | (.handled response, context) => .ok (response, context)
      | (.escaped, context) => .ok (coreErrorMessage, context)
      | (.exhausted, context) =>
        let context :=
          addToHistory context
            { role := .assistant, content := fallbackMessage, timestamp := none }
            now
        if F .fallbackEndTimer || F .fallbackWarn then
          .ok (coreErrorMessage, context)
        else .ok (fallbackMessage, context)

/-- `Core.registerModule` (lines 89-92 of `core.ts`): push the module onto
the registry; no validation and no sorting happens here. -/
def registerModule (modules : List RModule) (module : RModule) :
    List RModule :=
  modules ++ [module]

/-- The sort performed once by `Core.loadModules` after bulk registration
(line 65 of `core.ts`): `this.modules.sort((a, b) => a.priority - b.priority)`,
a stable ascending sort by priority. -/
def sortModules (modules : List RModule) : List RModule :=
  modules.mergeSort (fun a b => a.priority ≤ b.priority)

/-- The runtime shape of a dynamically imported module candidate, as probed
by `Core.isValidModule`: `none` stands for a field that is missing or has
the wrong runtime type. -/
structure RawShape where
  name : Option String
  description : Option String
  priority : Option Int
  hasCanHandle : Bool
  hasHandle : Bool

/-- `Core.isValidModule` (lines 75-84 of `core.ts`). -/
def isValidModule (m : RawShape) : Bool :=
  m.name.isSome && m.description.isSome && m.priority.isSome &&
    m.hasCanHandle && m.hasHandle

/-- A dynamically imported candidate: its runtime shape plus its behaviour
(used only when the shape is valid). -/
structure ModuleCandidate where
  shape : RawShape
  canHandle : String → MessageContext → Except String Bool
  handle : String → MessageContext → Except String String

/-- `Core.loadModules` (lines 32-70 of `core.ts`), after the directory scan:
each candidate passing `isValidModule` is registered; an invalid candidate
is skipped with a logged warning (line 56), not an error; finally the
registry is sorted by priority. -/
def loadModules (candidates : List ModuleCandidate) : List RModule :=
  sortModules
    ((candidates.filter (fun c => isValidModule c.shape)).map (fun c =>
      { name := c.shape.name.getD ""
        description := c.shape.description.getD ""
        priority := c.shape.priority.getD 0
        canHandle := c.canHandle
        handle := c.handle }))

/-! ### A small regular-expression engine

The concrete modules decide `canHandle` by `RegExp.prototype.test`.  The
patterns used by the repository only need literals, alternation of
literals, one-or-more repetition of a character class, concatenation, and
the `^`/`$` anchors, so they are embedded by the `Pat`/`Regex` types below.
Case-insensitive flags are handled by lowering the subject text; the two
case-sensitive AI exclude patterns (`/^\/\w+/`, `/^!/`) only mention
characters invariant under lowering, so the same lowering is harmless. -/

/-- Pattern syntax: literal, alternation of literals (`(btc|eth|...)`),
one-or-more of a character class (`\s+`, `\w+`), concatenation. -/
inductive Pat where
  | lit : List Char → Pat
  | oneOf : List (List Char) → Pat
  | plusCls : (Char → Bool) → Pat
  | seq : Pat → Pat → Pat

/-- All ways a pattern can match a prefix of `cs`, given as the list of
possible remainders. -/
def matchPre : Pat → List Char → List (List Char)
  | .lit s, cs => if s.isPrefixOf cs then [cs.drop s.length] else []
  | .oneOf ss, cs =>
    (ss.filter (fun s => s.isPrefixOf cs)).map (fun s => cs.drop s.length)
  | .plusCls f, cs =>
    (List.range (cs.takeWhile f).length).map (fun i => cs.drop (i + 1))
  | .seq p q, cs => ((matchPre p cs).map (matchPre q)).flatten

/-- Anchoring mode of a pattern: `^...$`, `^...`, or unanchored. -/
inductive Mode where
  | full
  | anchoredStart
  | search

/-- One source regex: a pattern plus its anchoring. -/
structure Regex where
  pat : Pat
  mode : Mode

/-- Lower-case a subject string (the `/i` flag). -/
def lowerChars (s : String) : List Char := s.data.map Char.toLower

/-- `RegExp.prototype.test`. -/
def Regex.test (r : Regex) (text : String) : Bool :=
  let cs := lowerChars text
  match r.mode with
  | .full => (matchPre r.pat cs).any (fun rem => rem.isEmpty)
  | .anchoredStart => !(matchPre r.pat cs).isEmpty
  | .search => cs.tails.any (fun s => !(matchPre r.pat s).isEmpty)

/-- JavaScript `\w`. -/
def wordChar (c : Char) : Bool := c.isAlphanum || c = '_'

/-- JavaScript `\s` (the subjects at hand only use plain whitespace). -/
def spaceChar (c : Char) : Bool := c.isWhitespace

/-- Shorthand for a full-match literal regex such as `/^\/position$/i`. -/
def fullLit (s : String) : Regex := { pat := .lit s.data, mode := .full }

/-- Shorthand for a start-anchored literal regex such as `/^\/trading_help/i`. -/
def startLit (s : String) : Regex := { pat := .lit s.data, mode := .anchoredStart }

/-- Shorthand for an unanchored substring regex such as `/my position/i`. -/
def searchLit (s : String) : Regex := { pat := .lit s.data, mode := .search }

/-- The coin alternation of `trading.module.ts`:
`(btc|eth|sol|matic|arb|op|avax|bnb|ada|dot)`. -/
def coinAlt : Pat :=
  .oneOf (["btc", "eth", "sol", "matic", "arb", "op", "avax", "bnb", "ada",
    "dot"].map String.data)

/-- The `patterns` table of `TradingModule` (constructor of
`src/modules/trading.module.ts`), flattened in source order:
the `position`, `positionDetail` and `help` groups. -/
def TradingModule.patterns : List Regex :=
  [fullLit "/position", fullLit "/pos", fullLit "/portfolio",
   searchLit "my position", searchLit "check position",
   searchLit "show position", searchLit "what\x27s my position",
   searchLit "what are my positions", searchLit "open positions",
   searchLit "current positions",
   -- /^\/position_detail\s+(\w+)/i
   { pat := .seq (.lit "/position_detail".data)
       (.seq (.plusCls spaceChar) (.plusCls wordChar))
     mode := .anchoredStart },
   -- /position\s+(btc|...)/i
   { pat := .seq (.lit "position".data) (.seq (.plusCls spaceChar) coinAlt)
     mode := .search },
   -- /show\s+(btc|...)\s+position/i
   { pat := .seq (.lit "show".data) (.seq (.plusCls spaceChar)
       (.seq coinAlt (.seq (.plusCls spaceChar) (.lit "position".data))))
     mode := .search },
   startLit "/trading_help", startLit "/trading-help",
   startLit "/tradinghelp", searchLit "trading commands",
   searchLit "how to check position"]

/-- `TradingModule.canHandle` (`src/modules/trading.module.ts` lines 57-66):
true when any pattern of any group tests true; the `_context` parameter is
never read or written. -/
def TradingModule.canHandle (text : String) (_context : MessageContext) :
    Bool :=
  TradingModule.patterns.any (fun p => p.test text)

/-- The `helpPatterns` of `HelpModule.canHandle`
(`src/modules/help.module.ts`). -/
def HelpModule.patterns : List Regex :=
  [fullLit "/help", fullLit "/start", fullLit "help",
   searchLit "what can you do", searchLit "how do i", searchLit "commands"]

/-- `HelpModule.canHandle` (`src/modules/help.module.ts` lines 14-24); the
`_context` parameter is never read or written. -/
def HelpModule.canHandle (text : String) (_context : MessageContext) :
    Bool :=
  HelpModule.patterns.any (fun p => p.test text)

/-- The `excludePatterns` of `AIModule` (`src/modules/ai.module.ts`):
`/^\/\w+/` and `/^!/`. -/
def AIModule.excludePatterns : List Regex :=
  [{ pat := .seq (.lit "/".data) (.plusCls wordChar), mode := .anchoredStart },
   startLit "!"]

/-- `AIModule.canHandle` (`src/modules/ai.module.ts`): handle everything
that matches no exclude pattern; the `_context` parameter is never read or
written. -/
def AIModule.canHandle (text : String) (_context : MessageContext) : Bool :=
  !AIModule.excludePatterns.any (fun p => p.test text)

/-- A minimal caller-supplied context, used by the concrete instances
below: empty history, no core/logger installed yet. -/
def emptyCtx : MessageContext :=
  { chatId := 7, userId := 42, platform := "telegram", correlationId := none
    metadata := "meta", history := none, core := none, logger := none }

/-- The last `n` elements of a list: what `Array.prototype.slice(-n)` keeps.
Used to state the truncation behaviour of `addToHistory`. -/
def suffixKeep (n : Nat) (xs : List α) : List α := xs.drop (xs.length - n)

/-- A module declines a message under fault-free logging: its `canHandle`
throws, or returns false, or returns true but its `handle` throws/rejects.
In each case the dispatch loop of `handleMessage` moves past it. -/
def Declines (m : RModule) (text : String) (ctx : MessageContext) : Prop :=
  (∃ e, m.canHandle text ctx = .error e) ∨ m.canHandle text ctx = .ok false ∨
    (m.canHandle text ctx = .ok true ∧ ∃ e, m.handle text ctx = .error e)

/-- No logging call site inside the dispatch loop throws — including the
logging inside the per-module catch block (lines 168-169). -/
def LoopQuiet (F : LogSite → Bool) : Prop :=
  F .routingEndTimer = false ∧ F .routingLog = false ∧
    F .executionStartTimer = false ∧ F .executionEndTimer = false ∧
    F .totalEndTimer = false ∧ F .logCommandCall = false ∧
    F .catchErrorLog = false

/-- Two contexts agree on every field other than `history`, `core` and
`logger` — the frame the router is allowed to touch. -/
def SameOutside (c c' : MessageContext) : Prop :=
  c'.chatId = c.chatId ∧ c'.userId = c.userId ∧ c'.platform = c.platform ∧
    c'.correlationId = c.correlationId ∧ c'.metadata = c.metadata

/-- A module that accepts every message and echoes it. -/
def echoModule : RModule :=
  { name := "Echo", description := "echoes the input", priority := 50
    canHandle := fun _ _ => .ok true
    handle := fun text _ => .ok ("echo: " ++ text) }

/-- A module whose predicate declines every message. -/
def silentModule : RModule :=
  { name := "Silent", description := "declines everything", priority := 10
    canHandle := fun _ _ => .ok false
    handle := fun _ _ => .ok "silent" }

/-- A module whose `canHandle` always throws. -/
def brokenPredicateModule : RModule :=
  { name := "BrokenPred", description := "predicate throws", priority := 20
    canHandle := fun _ _ => .error "boom"
    handle := fun _ _ => .ok "never reached" }

/-- A module that matches everything but whose `handle` always rejects. -/
def brokenHandlerModule : RModule :=
  { name := "BrokenHandler", description := "handler rejects", priority := 30
    canHandle := fun _ _ => .ok true
    handle := fun _ _ => .error "bang" }

/-- A named, prioritised module that never matches; used to exercise the
registration path. -/
def stubModule (name : String) (priority : Int) : RModule :=
  { name := name, description := "stub", priority := priority
    canHandle := fun _ _ => .ok false
    handle := fun _ _ => .ok "" }

/-- Sequential fault-free router calls on one context, one per text. -/
def runSeq (modules : List RModule) (now : Nat) (texts : List String)
    (context : MessageContext) : MessageContext :=
  match texts with
  | [] => context
  | t :: ts =>
    match handleMessage noFault modules now t context with
    | .ok (_, context') => runSeq modules now ts context'
    | .error _ => context

/-- The 25 message texts of the history-bound scenario. -/
def demoTexts : List String :=
  (List.range 25).map (fun i => "m" ++ toString (i + 1))

/-- A fault-free demonstration call used to instantiate the theorems. -/
def demoRun : Except String (String × MessageContext) :=
  handleMessage noFault [echoModule] 0 "ping" emptyCtx

/-- The response of `demoRun`. -/
def demoResp : String :=
  match demoRun with
  | .ok (r, _) => r
  | .error _ => ""

/-- The context after `demoRun`. -/
def demoCtx : MessageContext :=
  match demoRun with
  | .ok (_, c) => c
  | .error _ => emptyCtx

/-- Fault assignment where exactly the `warn` at line 185 of `core.ts`
(inside the outer `try`, after the fallback append) throws. -/
def faultFallbackWarn : LogSite → Bool := fun s => s == LogSite.fallbackWarn

/-- Fault assignment where exactly the logging inside the per-module catch
block (lines 168-169 of `core.ts`) throws. -/
def faultCatchLog : LogSite → Bool := fun s => s == LogSite.catchErrorLog

/-- A dynamically imported candidate whose `priority` has the wrong runtime
type (`typeof module.priority === 'number'` fails). -/
def badPriorityCandidate : ModuleCandidate :=
  { shape := { name := some "Bad", description := some "desc"
               priority := none, hasCanHandle := true, hasHandle := true }
    canHandle := fun _ _ => .ok false
    handle := fun _ _ => .ok "" }

/-! ### Basic lemmas about `addToHistory` and `suffixKeep` -/

theorem suffixKeep_length_le (n : Nat) (xs : List α) :
    (suffixKeep n xs).length ≤ n := by
  unfold suffixKeep
  rw [List.length_drop]
  omega

theorem suffixKeep_append (n : Nat) (xs ys : List α) :
    suffixKeep n (suffixKeep n xs ++ ys) = suffixKeep n (xs ++ ys) := by
  unfold suffixKeep
  rw [List.drop_append_eq_append_drop, List.drop_append_eq_append_drop,
    List.drop_drop]
  congr 1
  · congr 1
    simp only [List.length_append, List.length_drop]
    omega
  · congr 1
    simp only [List.length_append, List.length_drop]
    omega

theorem addToHistory_eq (context : MessageContext)
    (message : ConversationMessage) (now : Nat) :
    addToHistory context message now =
      { context with history := some (suffixKeep MAX_HISTORY_LENGTH
          ((context.history.getD []) ++
            [{ message with timestamp := some now }])) } := by
  unfold addToHistory suffixKeep
  dsimp only
  split
  · rfl
  · rename_i h
    rw [Nat.sub_eq_zero_of_le (by omega), List.drop_zero]

theorem addToHistory_history (context : MessageContext)
    (message : ConversationMessage) (now : Nat) :
    (addToHistory context message now).history =
      some (suffixKeep MAX_HISTORY_LENGTH
        ((context.history.getD []) ++ [{ message with timestamp := some now }])) := by
  rw [addToHistory_eq]

theorem addToHistory_length_le (context : MessageContext)
    (message : ConversationMessage) (now : Nat) :
    (((addToHistory context message now).history).getD []).length ≤
      MAX_HISTORY_LENGTH := by
  rw [addToHistory_history]
  simpa using suffixKeep_length_le MAX_HISTORY_LENGTH _

/-! ### Lemmas about the dispatch scan -/

theorem noFault_loopQuiet : LoopQuiet noFault :=
  ⟨rfl, rfl, rfl, rfl, rfl, rfl, rfl⟩

theorem scanModules_decline_cons (F : LogSite → Bool) (hF : LoopQuiet F)
    (m : RModule) (rest : List RModule) (text : String) (now : Nat)
    (ctx : MessageContext) (h : Declines m text ctx) :
    scanModules F (m :: rest) text now ctx =
      scanModules F rest text now ctx := by
  obtain ⟨h1, h2, h3, h4, h5, h6, h7⟩ := hF
  rcases h with ⟨e, hc⟩ | hc | ⟨hc, e, hh⟩
  · simp [scanModules, hc, h7]
  · simp [scanModules, hc]
  · simp [scanModules, hc, hh, h1, h2, h3, h7]

theorem scanModules_accept_cons (F : LogSite → Bool) (hF : LoopQuiet F)
    (m : RModule) (rest : List RModule) (text : String) (now : Nat)
    (ctx : MessageContext) (r : String)
    (hc : m.canHandle text ctx = .ok true)
    (hh : m.handle text ctx = .ok r) :
    scanModules F (m :: rest) text now ctx =
      (.handled r,
        addToHistory ctx { role := .assistant, content := r, timestamp := none }
          now) := by
  obtain ⟨h1, h2, h3, h4, h5, h6, h7⟩ := hF
  simp [scanModules, hc, hh, h1, h2, h3, h4, h5, h6]

theorem scanModules_none (F : LogSite → Bool) (hF : LoopQuiet F)
    (mods : List RModule) (text : String) (now : Nat) (ctx : MessageContext)
    (h : ∀ m ∈ mods, Declines m text ctx) :
    scanModules F mods text now ctx = (.exhausted, ctx) := by
  induction mods with
  | nil => rfl
  | cons m rest ih =>
    rw [scanModules_decline_cons F hF m rest text now ctx (h m (by simp))]
    exact ih (fun m' hm' => h m' (by simp [hm']))

theorem scanModules_first (F : LogSite → Bool) (hF : LoopQuiet F)
    (pre : List RModule) (m : RModule) (post : List RModule) (text : String)
    (now : Nat) (ctx : MessageContext) (r : String)
    (hpre : ∀ m' ∈ pre, Declines m' text ctx)
    (hc : m.canHandle text ctx = .ok true)
    (hh : m.handle text ctx = .ok r) :
    scanModules F (pre ++ m :: post) text now ctx =
      (.handled r,
        addToHistory ctx { role := .assistant, content := r, timestamp := none }
          now) := by
  induction pre with
  | nil => simpa using scanModules_accept_cons F hF m post text now ctx r hc hh
  | cons p ps ih =>
    rw [List.cons_append,
      scanModules_decline_cons F hF p _ text now ctx (hpre p (by simp))]
    exact ih (fun m' hm' => hpre m' (by simp [hm']))

theorem scanModules_skip (F : LogSite → Bool) (hF : LoopQuiet F)
    (pre : List RModule) (m : RModule) (post : List RModule) (text : String)
    (now : Nat) (ctx : MessageContext) (h : Declines m text ctx) :
    scanModules F (pre ++ m :: post) text now ctx =
      scanModules F (pre ++ post) text now ctx := by
  induction pre with
  | nil => exact scanModules_decline_cons F hF m post text now ctx h
  | cons p ps ih =>
    by_cases hp : Declines p text ctx
    · rw [List.cons_append, List.cons_append,
        scanModules_decline_cons F hF p _ text now ctx hp,
        scanModules_decline_cons F hF p _ text now ctx hp]
      exact ih
    · cases hcc : p.canHandle text ctx with
      | error e => exact absurd (Or.inl ⟨e, hcc⟩) hp
      | ok b =>
        cases b with
        | false => exact absurd (Or.inr (Or.inl hcc)) hp
        | true =>
          cases hhh : p.handle text ctx with
          | error e => exact absurd (Or.inr (Or.inr ⟨hcc, e, hhh⟩)) hp
          | ok r =>
            rw [List.cons_append, List.cons_append,
              scanModules_accept_cons F hF p _ text now ctx r hcc hhh,
              scanModules_accept_cons F hF p _ text now ctx r hcc hhh]

theorem scanModules_ok_ctx (F : LogSite → Bool) (hF : LoopQuiet F)
    (mods : List RModule) (text : String) (now : Nat) (ctx : MessageContext)
    (r : String) (ctx' : MessageContext)
    (h : scanModules F mods text now ctx = (.handled r, ctx')) :
    ctx' = addToHistory ctx
      { role := .assistant, content := r, timestamp := none } now := by
  induction mods with
  | nil => simp [scanModules] at h
  | cons m rest ih =>
    by_cases hm : Declines m text ctx
    · rw [scanModules_decline_cons F hF m rest text now ctx hm] at h
      exact ih h
    · cases hcc : m.canHandle text ctx with
      | error e => exact absurd (Or.inl ⟨e, hcc⟩) hm
      | ok b =>
        cases b with
        | false => exact absurd (Or.inr (Or.inl hcc)) hm
        | true =>
          cases hhh : m.handle text ctx with
          | error e => exact absurd (Or.inr (Or.inr ⟨hcc, e, hhh⟩)) hm
          | ok resp =>
            rw [scanModules_accept_cons F hF m rest text now ctx resp hcc hhh]
              at h
            obtain ⟨h1, h2⟩ := Prod.mk.injEq .. ▸ h
            cases h1
            exact h2.symm ▸ rfl

theorem scanModules_none_ctx (F : LogSite → Bool) (hF : LoopQuiet F)
    (mods : List RModule) (text : String) (now : Nat) (ctx : MessageContext)
    (c : MessageContext)
    (h : scanModules F mods text now ctx = (.exhausted, c)) : c = ctx := by
  induction mods with
  | nil =>
    obtain ⟨h1, h2⟩ := Prod.mk.injEq .. ▸ h
    exact h2.symm
  | cons m rest ih =>
    by_cases hm : Declines m text ctx
    · rw [scanModules_decline_cons F hF m rest text now ctx hm] at h
      exact ih h
    · cases hcc : m.canHandle text ctx with
      | error e => exact absurd (Or.inl ⟨e, hcc⟩) hm
      | ok b =>
        cases b with
        | false => exact absurd (Or.inr (Or.inl hcc)) hm
        | true =>
          cases hhh : m.handle text ctx with
          | error e => exact absurd (Or.inr (Or.inr ⟨hcc, e, hhh⟩)) hm
          | ok resp =>
            rw [scanModules_accept_cons F hF m rest text now ctx resp hcc hhh]
              at h
            obtain ⟨h1, h2⟩ := Prod.mk.injEq .. ▸ h
            exact absurd h1 (by simp)

theorem scanModules_quiet_not_escaped (F : LogSite → Bool) (hF : LoopQuiet F)
    (mods : List RModule) (text : String) (now : Nat) (ctx : MessageContext)
    (c : MessageContext) :
    scanModules F mods text now ctx ≠ (.escaped, c) := by
  induction mods with
  | nil =>
    intro h
    obtain ⟨h1, h2⟩ := Prod.mk.injEq .. ▸ h
    exact absurd h1 (by simp)
  | cons m rest ih =>
    intro h
    by_cases hm : Declines m text ctx
    · rw [scanModules_decline_cons F hF m rest text now ctx hm] at h
      exact ih h
    · cases hcc : m.canHandle text ctx with
      | error e => exact absurd (Or.inl ⟨e, hcc⟩) hm
      | ok b =>
        cases b with
        | false => exact absurd (Or.inr (Or.inl hcc)) hm
        | true =>
          cases hhh : m.handle text ctx with
          | error e => exact absurd (Or.inr (Or.inr ⟨hcc, e, hhh⟩)) hm
          | ok resp =>
            rw [scanModules_accept_cons F hF m rest text now ctx resp hcc hhh]
              at h
            obtain ⟨h1, h2⟩ := Prod.mk.injEq .. ▸ h
            exact absurd h1 (by simp)

theorem scanModules_escape (F : LogSite → Bool)
    (h1 : F .routingEndTimer = false) (h2 : F .routingLog = false)
    (h3 : F .executionStartTimer = false)
    (hcatch : F .catchErrorLog = true)
    (pre : List RModule) (m : RModule) (post : List RModule) (text : String)
    (now : Nat) (ctx : MessageContext)
    (hpre : ∀ m' ∈ pre, m'.canHandle text ctx = .ok false)
    (hm : (∃ e, m.canHandle text ctx = .error e) ∨
      (m.canHandle text ctx = .ok true ∧ ∃ e, m.handle text ctx = .error e)) :
    scanModules F (pre ++ m :: post) text now ctx = (.escaped, ctx) := by
  induction pre with
  | nil =>
    rcases hm with ⟨e, hc⟩ | ⟨hc, e, hh⟩
    · simp [scanModules, hc, hcatch]
    · simp [scanModules, hc, hh, h1, h2, h3, hcatch]
  | cons p ps ih =>
    rw [List.cons_append,
      show scanModules F (p :: (ps ++ m :: post)) text now ctx =
          scanModules F (ps ++ m :: post) text now ctx from by
        simp [scanModules, hpre p (by simp)]]
    exact ih (fun m' hm' => hpre m' (by simp [hm']))

theorem scanModules_frame (F : LogSite → Bool) (mods : List RModule)
    (text : String) (now : Nat) (ctx : MessageContext) :
    ∃ h, (scanModules F mods text now ctx).2 = { ctx with history := h } := by
  induction mods generalizing ctx with
  | nil => exact ⟨ctx.history, rfl⟩
  | cons m rest ih =>
    rw [scanModules]
    cases m.canHandle text ctx with
    | error e =>
      cases F .catchErrorLog with
      | true => exact ⟨ctx.history, rfl⟩
      | false => exact ih ctx
    | ok b =>
      cases b with
      | false => exact ih ctx
      | true =>
        cases F .routingEndTimer || F .routingLog || F .executionStartTimer with
        | true =>
          cases F .catchErrorLog with
          | true => exact ⟨ctx.history, rfl⟩
          | false => exact ih ctx
        | false =>
          dsimp only
          cases m.handle text ctx with
          | error e =>
            cases F .catchErrorLog with
            | true => exact ⟨ctx.history, rfl⟩
            | false => exact ih ctx
          | ok response =>
            cases F .executionEndTimer with
            | true =>
              cases F .catchErrorLog with
              | true => exact ⟨ctx.history, rfl⟩
              | false => exact ih ctx
            | false =>
              dsimp only
              rw [addToHistory_eq]
              cases F .totalEndTimer || F .logCommandCall with
              | true =>
                cases F .catchErrorLog with
                | true => exact ⟨_, rfl⟩
                | false =>
                  obtain ⟨h, hh⟩ := ih { ctx with history := _ }
                  exact ⟨h, hh⟩
              | false => exact ⟨_, rfl⟩

theorem scanModules_bound (F : LogSite → Bool) (mods : List RModule)
    (text : String) (now : Nat) (ctx : MessageContext)
    (hctx : ((ctx.history).getD []).length ≤ MAX_HISTORY_LENGTH) :
    ((((scanModules F mods text now ctx).2).history).getD []).length ≤
      MAX_HISTORY_LENGTH := by
  induction mods generalizing ctx with
  | nil => exact hctx
  | cons m rest ih =>
    rw [scanModules]
    cases m.canHandle text ctx with
    | error e =>
      cases F .catchErrorLog with
      | true => exact hctx
      | false => exact ih ctx hctx
    | ok b =>
      cases b with
      | false => exact ih ctx hctx
      | true =>
        cases F .routingEndTimer || F .routingLog || F .executionStartTimer with
        | true =>
          cases F .catchErrorLog with
          | true => exact hctx
          | false => exact ih ctx hctx
        | false =>
          dsimp only
          cases m.handle text ctx with
          | error e =>
            cases F .catchErrorLog with
            | true => exact hctx
            | false => exact ih ctx hctx
          | ok response =>
            cases F .executionEndTimer with
            | true =>
              cases F .catchErrorLog with
              | true => exact hctx
              | false => exact ih ctx hctx
            | false =>
              dsimp only
              cases F .totalEndTimer || F .logCommandCall with
              | true =>
                cases F .catchErrorLog with
                | true => exact addToHistory_length_le ctx _ now
                | false => exact ih _ (addToHistory_length_le ctx _ now)
              | false => exact addToHistory_length_le ctx _ now

/-! ### Lemmas about `handleMessage` -/

theorem handleMessage_noFault_some (mods : List RModule) (text : String)
    (now : Nat) (ctx : MessageContext) (r : String) (c : MessageContext)
    (h : scanModules noFault mods text now (ctxPrepared ctx text now) =
      (.handled r, c)) :
    handleMessage noFault mods now text ctx = .ok (r, c) := by
  unfold handleMessage
  simp [noFault, h]

theorem handleMessage_noFault_none (mods : List RModule) (text : String)
    (now : Nat) (ctx : MessageContext) (c : MessageContext)
    (h : scanModules noFault mods text now (ctxPrepared ctx text now) =
      (.exhausted, c)) :
    handleMessage noFault mods now text ctx =
      .ok (fallbackMessage,
        addToHistory c
          { role := .assistant, content := fallbackMessage, timestamp := none }
          now) := by
  unfold handleMessage
  simp [noFault, h]

theorem handleMessage_escaped (F : LogSite → Bool) (mods : List RModule)
    (text : String) (now : Nat) (ctx : MessageContext) (c : MessageContext)
    (hs1 : F .startTimerMessage = false) (hs2 : F .startTimerRouting = false)
    (hs3 : F .preLoopLog = false)
    (h : scanModules F mods text now (ctxPrepared ctx text now) =
      (.escaped, c)) :
    handleMessage F mods now text ctx = .ok (coreErrorMessage, c) := by
  unfold handleMessage
  simp [hs1, hs2, hs3, h]

theorem handleMessage_noFault_inv (mods : List RModule) (text : String)
    (now : Nat) (ctx : MessageContext) (r : String) (ctx' : MessageContext)
    (h : handleMessage noFault mods now text ctx = .ok (r, ctx')) :
    scanModules noFault mods text now (ctxPrepared ctx text now) =
        (.handled r, ctx') ∨
      (∃ c, scanModules noFault mods text now (ctxPrepared ctx text now) =
          (.exhausted, c) ∧ r = fallbackMessage ∧
          ctx' = addToHistory c
            { role := .assistant, content := fallbackMessage, timestamp := none }
            now) := by
  rcases hs : scanModules noFault mods text now (ctxPrepared ctx text now) with
    ⟨o, c⟩
  cases o with
  | handled resp =>
    rw [handleMessage_noFault_some mods text now ctx resp c hs] at h
    obtain ⟨h1, h2⟩ := Prod.mk.injEq .. ▸ Except.ok.inj h
    cases h1
    cases h2
    exact Or.inl rfl
  | exhausted =>
    rw [handleMessage_noFault_none mods text now ctx c hs] at h
    obtain ⟨h1, h2⟩ := Prod.mk.injEq .. ▸ Except.ok.inj h
    exact Or.inr ⟨c, rfl, h1.symm, h2.symm⟩
  | escaped =>
    exact absurd hs (scanModules_quiet_not_escaped noFault noFault_loopQuiet
      mods text now (ctxPrepared ctx text now) c)

/-! ### Lemmas about the `loadModules` sort -/

theorem sortModules_pairwise (mods : List RModule) :
    (sortModules mods).Pairwise (fun a b => a.priority ≤ b.priority) := by
  unfold sortModules
  have h := @List.sorted_mergeSort RModule
    (fun a b => decide (a.priority ≤ b.priority))
    (fun a b c hab hbc => by simp only [decide_eq_true_eq] at *; omega)
    (fun a b => by simp only [Bool.or_eq_true, decide_eq_true_eq]; omega) mods
  exact h.imp (fun hab => by simpa using hab)

theorem sortModules_stable (mods : List RModule) (p : Int) :
    (sortModules mods).filter (fun m => m.priority == p) =
      mods.filter (fun m => m.priority == p) := by
  have htrans : ∀ a b c : RModule,
      decide (a.priority ≤ b.priority) = true →
      decide (b.priority ≤ c.priority) = true →
      decide (a.priority ≤ c.priority) = true := by
    intro a b c hab hbc
    simp only [decide_eq_true_eq] at *
    omega
  have htotal : ∀ a b : RModule,
      (decide (a.priority ≤ b.priority) ||
        decide (b.priority ≤ a.priority)) = true := by
    intro a b
    simp only [Bool.or_eq_true, decide_eq_true_eq]
    omega
  have hpair : (mods.filter (fun m => m.priority == p)).Pairwise
      (fun a b => decide (a.priority ≤ b.priority) = true) := by
    rw [List.pairwise_iff_forall_sublist]
    intro a b hsub
    have ha := List.of_mem_filter (hsub.subset (show a ∈ [a, b] by simp))
    have hb := List.of_mem_filter (hsub.subset (show b ∈ [a, b] by simp))
    simp only [beq_iff_eq] at ha hb
    simp only [decide_eq_true_eq, ha, hb, le_refl]
  have hsub : (mods.filter (fun m => m.priority == p)).Sublist
      (sortModules mods) := by
    unfold sortModules
    exact List.sublist_mergeSort htrans htotal hpair (List.filter_sublist mods)
  have hperm : ((sortModules mods).filter (fun m => m.priority == p)).Perm
      (mods.filter (fun m => m.priority == p)) := by
    unfold sortModules
    exact (List.mergeSort_perm mods _).filter _
  have hidem : (mods.filter (fun m => m.priority == p)).filter
      (fun m => m.priority == p) = mods.filter (fun m => m.priority == p) := by
    rw [List.filter_filter]
    simp only [Bool.and_self]
  have hsub2 : (mods.filter (fun m => m.priority == p)).Sublist
      ((sortModules mods).filter (fun m => m.priority == p)) := by
    have := List.Sublist.filter (fun m => m.priority == p) hsub
    rwa [hidem] at this
  exact (hsub2.eq_of_length hperm.length_eq.symm).symm

theorem handleMessage_scan_congr (mods mods' : List RModule) (text : String)
    (now : Nat) (ctx : MessageContext)
    (h : scanModules noFault mods text now (ctxPrepared ctx text now) =
      scanModules noFault mods' text now (ctxPrepared ctx text now)) :
    handleMessage noFault mods now text ctx =
      handleMessage noFault mods' now text ctx := by
  unfold handleMessage
  dsimp only
  rw [h]

theorem handleMessage_noFault_total (mods : List RModule) (text : String)
    (now : Nat) (ctx : MessageContext) :
    ∃ r ctx', handleMessage noFault mods now text ctx = .ok (r, ctx') := by
  rcases hs : scanModules noFault mods text now (ctxPrepared ctx text now)
    with ⟨o, c⟩
  cases o with
  | exhausted => exact ⟨_, _, handleMessage_noFault_none mods text now ctx c hs⟩
  | handled resp =>
    exact ⟨_, _, handleMessage_noFault_some mods text now ctx resp c hs⟩
  | escaped =>
    exact absurd hs (scanModules_quiet_not_escaped noFault noFault_loopQuiet
      mods text now (ctxPrepared ctx text now) c)

theorem ctxPrepared_eq (ctx : MessageContext) (text : String) (now : Nat) :
    ctxPrepared ctx text now =
      { ctx with
        history := some (suffixKeep MAX_HISTORY_LENGTH ((ctx.history.getD []) ++
          [{ role := .user, content := text, timestamp := some now }]))
        core := some ()
        logger := some () } := by
  unfold ctxPrepared
  rw [addToHistory_eq]

theorem ctxPrepared_history (ctx : MessageContext) (text : String) (now : Nat) :
    (ctxPrepared ctx text now).history =
      some (suffixKeep MAX_HISTORY_LENGTH ((ctx.history.getD []) ++
        [{ role := .user, content := text, timestamp := some now }])) := by
  rw [ctxPrepared_eq]

/-! ### The claims -/

/-- C1: for a registry produced by the bulk load (registration followed by the
stable priority sort at line 65 of `core.ts`), `handleMessage` returns the
response of the first module — in ascending priority order, with ties broken
by registration order, witnessed by the `Pairwise` and filter-stability
conjuncts — whose `canHandle` returns true and whose `handle` succeeds;
every earlier module declined, and no later module's result is returned. -/
theorem handleMessage_first_match (mods pre : List RModule) (m : RModule)
    (post : List RModule) (text : String) (now : Nat) (ctx : MessageContext)
    (r : String)
    (hdecomp : sortModules mods = pre ++ m :: post)
    (hpre : ∀ m' ∈ pre, Declines m' text (ctxPrepared ctx text now))
    (hc : m.canHandle text (ctxPrepared ctx text now) = .ok true)
    (hh : m.handle text (ctxPrepared ctx text now) = .ok r) :
    handleMessage noFault (sortModules mods) now text ctx =
      .ok (r, addToHistory (ctxPrepared ctx text now)
        { role := .assistant, content := r, timestamp := none } now) ∧
    (sortModules mods).Pairwise (fun a b => a.priority ≤ b.priority) ∧
    (∀ p : Int, (sortModules mods).filter (fun m' => m'.priority == p) =
      mods.filter (fun m' => m'.priority == p)) := by
  refine ⟨?_, sortModules_pairwise mods, fun p => sortModules_stable mods p⟩
  apply handleMessage_noFault_some
  rw [hdecomp]
  exact scanModules_first noFault noFault_loopQuiet pre m post text now _ r
    hpre hc hh

/-- Witness for C1: registry `[Silent(10), Echo(50)]` (already in priority
order), message addressed by the echo module only. -/
theorem handleMessage_first_match_witness :
    handleMessage noFault (sortModules [silentModule, echoModule]) 0 "ping"
        emptyCtx =
      .ok ("echo: ping", addToHistory (ctxPrepared emptyCtx "ping" 0)
        { role := .assistant, content := "echo: ping", timestamp := none } 0) :=
  (handleMessage_first_match [silentModule, echoModule] [silentModule]
    echoModule [] "ping" 0 emptyCtx "echo: ping"
    (by
      unfold sortModules
      exact List.mergeSort_of_sorted (by decide))
    (by
      intro m' hm'
      have hm : m' = silentModule := by simpa using hm'
      subst hm
      exact Or.inr (Or.inl rfl))
    rfl rfl).1

set_option maxRecDepth 4000 in
/-- C2: after any `handleMessage` call that returns (under any logger fault
assignment), the history holds at most `MAX_HISTORY_LENGTH = 20` entries;
each `addToHistory` keeps exactly the most recent entries of the appended
sequence (truncation removes only the oldest entries, from the front,
preserving the order of the remainder); and after the 25 sequential calls of
the scenario, the history is exactly the 20 most recent of the 50 appended
messages, in their original order. -/
theorem history_bound_invariant :
    (∀ (F : LogSite → Bool) (mods : List RModule) (now : Nat) (text : String)
        (ctx : MessageContext) (r : String) (ctx' : MessageContext),
        handleMessage F mods now text ctx = .ok (r, ctx') →
        ((ctx'.history).getD []).length ≤ MAX_HISTORY_LENGTH) ∧
    (∀ (ctx : MessageContext) (message : ConversationMessage) (now : Nat),
        (addToHistory ctx message now).history =
          some (suffixKeep MAX_HISTORY_LENGTH ((ctx.history.getD []) ++
            [{ message with timestamp := some now }]))) ∧
    (runSeq [echoModule] 0 demoTexts emptyCtx).history =
      some ((demoTexts.flatMap (fun t =>
        ([{ role := .user, content := t, timestamp := some 0 },
          { role := .assistant, content := "echo: " ++ t, timestamp := some 0 }] :
          List ConversationMessage))).drop 30) ∧
    ((runSeq [echoModule] 0 demoTexts emptyCtx).history.getD []).length =
      MAX_HISTORY_LENGTH := by
  refine ⟨?_, addToHistory_history, by decide, by decide⟩
  intro F mods now text ctx r ctx' h
  unfold handleMessage at h
  split at h
  · exact absurd h (by simp)
  · dsimp only at h
    split at h
    · exact absurd h (by simp)
    · have hprep : (((ctxPrepared ctx text now).history).getD []).length ≤
          MAX_HISTORY_LENGTH := by
        rw [ctxPrepared_history]
        simpa using suffixKeep_length_le MAX_HISTORY_LENGTH _
      have hb := scanModules_bound F mods text now (ctxPrepared ctx text now)
        hprep
      rcases hs : scanModules F mods text now (ctxPrepared ctx text now) with
        ⟨o, c⟩
      rw [hs] at h hb
      cases o with
      | handled response =>
        dsimp only at h
        obtain ⟨h1, h2⟩ := Prod.mk.injEq .. ▸ Except.ok.inj h
        exact h2 ▸ hb
      | escaped =>
        dsimp only at h
        obtain ⟨h1, h2⟩ := Prod.mk.injEq .. ▸ Except.ok.inj h
        exact h2 ▸ hb
      | exhausted =>
        dsimp only at h
        split at h
        · obtain ⟨h1, h2⟩ := Prod.mk.injEq .. ▸ Except.ok.inj h
          exact h2 ▸ addToHistory_length_le _ _ _
        · obtain ⟨h1, h2⟩ := Prod.mk.injEq .. ▸ Except.ok.inj h
          exact h2 ▸ addToHistory_length_le _ _ _

/-- Witness for C2's quantified part: a concrete bounded run. -/
theorem history_bound_invariant_witness :
    ((demoCtx.history).getD []).length ≤ MAX_HISTORY_LENGTH :=
  history_bound_invariant.1 noFault [echoModule] 0 "ping" emptyCtx demoResp
    demoCtx (by rfl)

/-- C3: a module whose `canHandle` throws is treated as non-matching, and a
module whose `handle` throws is treated as having declined — either kind of
faulty module can be deleted from the registry without changing the result
of the call; under fault-free logging `handleMessage` never raises to its
caller; and when the only module present matches but its `handle` throws,
the call returns the fallback string. -/
theorem module_fault_fallthrough :
    (∀ (pre : List RModule) (m : RModule) (post : List RModule) (text : String)
        (now : Nat) (ctx : MessageContext) (e : String),
        m.canHandle text (ctxPrepared ctx text now) = .error e →
        handleMessage noFault (pre ++ m :: post) now text ctx =
          handleMessage noFault (pre ++ post) now text ctx) ∧
    (∀ (pre : List RModule) (m : RModule) (post : List RModule) (text : String)
        (now : Nat) (ctx : MessageContext) (e : String),
        m.canHandle text (ctxPrepared ctx text now) = .ok true →
        m.handle text (ctxPrepared ctx text now) = .error e →
        handleMessage noFault (pre ++ m :: post) now text ctx =
          handleMessage noFault (pre ++ post) now text ctx) ∧
    (∀ (mods : List RModule) (text : String) (now : Nat) (ctx : MessageContext),
        ∃ r ctx', handleMessage noFault mods now text ctx = .ok (r, ctx')) ∧
    (∀ (m : RModule) (text : String) (now : Nat) (ctx : MessageContext)
        (e : String),
        m.canHandle text (ctxPrepared ctx text now) = .ok true →
        m.handle text (ctxPrepared ctx text now) = .error e →
        handleMessage noFault [m] now text ctx =
          .ok (fallbackMessage,
            addToHistory (ctxPrepared ctx text now)
              { role := .assistant, content := fallbackMessage,
                timestamp := none } now)) := by
  refine ⟨?_, ?_, handleMessage_noFault_total, ?_⟩
  · intro pre m post text now ctx e hc
    exact handleMessage_scan_congr _ _ text now ctx
      (scanModules_skip noFault noFault_loopQuiet pre m post text now _
        (Or.inl ⟨e, hc⟩))
  · intro pre m post text now ctx e hc hh
    exact handleMessage_scan_congr _ _ text now ctx
      (scanModules_skip noFault noFault_loopQuiet pre m post text now _
        (Or.inr (Or.inr ⟨hc, e, hh⟩)))
  · intro m text now ctx e hc hh
    apply handleMessage_noFault_none
    apply scanModules_none noFault noFault_loopQuiet [m] text now _
    intro m' hm'
    have hm : m' = m := by simpa using hm'
    subst hm
    exact Or.inr (Or.inr ⟨hc, e, hh⟩)

/-- Witness for C3: the only module matches `"hello"` but its handler
rejects; the router answers with the fallback string instead of raising. -/
theorem module_fault_fallthrough_witness :
    handleMessage noFault [brokenHandlerModule] 0 "hello" emptyCtx =
      .ok (fallbackMessage,
        addToHistory (ctxPrepared emptyCtx "hello" 0)
          { role := .assistant, content := fallbackMessage, timestamp := none }
          0) :=
  module_fault_fallthrough.2.2.2 brokenHandlerModule "hello" 0 emptyCtx "bang"
    rfl rfl

/-- C4: when every module declines (predicate false or throwing, or handler
failing), `handleMessage` appends the one fixed fallback string to the
history as an assistant message and returns exactly that string, raising no
exception; the text is the constant `fallbackMessage` on every such call. -/
theorem fallback_on_exhaustion (mods : List RModule) (text : String)
    (now : Nat) (ctx : MessageContext)
    (h : ∀ m ∈ mods, m.canHandle text (ctxPrepared ctx text now) = .ok true →
        ∃ e, m.handle text (ctxPrepared ctx text now) = .error e) :
    handleMessage noFault mods now text ctx =
      .ok (fallbackMessage,
        addToHistory (ctxPrepared ctx text now)
          { role := .assistant, content := fallbackMessage, timestamp := none }
          now) := by
  have hdecl : ∀ m ∈ mods, Declines m text (ctxPrepared ctx text now) := by
    intro m hm
    cases hcc : m.canHandle text (ctxPrepared ctx text now) with
    | error e => exact Or.inl ⟨e, hcc⟩
    | ok b =>
      cases b with
      | false => exact Or.inr (Or.inl hcc)
      | true => exact Or.inr (Or.inr ⟨hcc, h m hm hcc⟩)
  exact handleMessage_noFault_none mods text now ctx _
    (scanModules_none noFault noFault_loopQuiet mods text now _ hdecl)

/-- Witness for C4: one silent module and one broken handler — nothing can
answer `"zzz"`, so the exact fallback string comes back. -/
theorem fallback_on_exhaustion_witness :
    handleMessage noFault [silentModule, brokenHandlerModule] 0 "zzz"
        emptyCtx =
      .ok (fallbackMessage,
        addToHistory (ctxPrepared emptyCtx "zzz" 0)
          { role := .assistant, content := fallbackMessage, timestamp := none }
          0) :=
  fallback_on_exhaustion [silentModule, brokenHandlerModule] "zzz" 0 emptyCtx
    (by
      intro m hm hcan
      simp only [List.mem_cons, List.not_mem_nil, or_false] at hm
      rcases hm with rfl | rfl
      · exact absurd hcan (by simp [silentModule])
      · exact ⟨"bang", rfl⟩)

/-- C5: every returning fault-free call appends exactly two stamped entries,
the user message then the assistant message whose content is the returned
string, to the back of the history (modulo the front truncation of the
invariant). -/
theorem handleMessage_roundtrip (mods : List RModule) (text : String)
    (now : Nat) (ctx : MessageContext) (r : String) (ctx' : MessageContext)
    (h : handleMessage noFault mods now text ctx = .ok (r, ctx')) :
    ctx'.history = some (suffixKeep MAX_HISTORY_LENGTH
      ((ctx.history.getD []) ++
        [{ role := .user, content := text, timestamp := some now },
         { role := .assistant, content := r, timestamp := some now }])) := by
  rcases handleMessage_noFault_inv mods text now ctx r ctx' h with
    hscan | ⟨c, hscan, hr, hctx⟩
  · have hc' := scanModules_ok_ctx noFault noFault_loopQuiet mods text now _ r
      ctx' hscan
    subst hc'
    rw [addToHistory_history, ctxPrepared_history]
    simp only [Option.getD_some]
    rw [suffixKeep_append, List.append_assoc]
    rfl
  · subst hr
    subst hctx
    have hc' := scanModules_none_ctx noFault noFault_loopQuiet mods text now _
      c hscan
    subst hc'
    rw [addToHistory_history, ctxPrepared_history]
    simp only [Option.getD_some]
    rw [suffixKeep_append, List.append_assoc]
    rfl

/-- Witness for C5: the round trip of the demonstration call. -/
theorem handleMessage_roundtrip_witness :
    demoCtx.history = some (suffixKeep MAX_HISTORY_LENGTH
      ((emptyCtx.history.getD []) ++
        [{ role := .user, content := "ping", timestamp := some 0 },
         { role := .assistant, content := demoResp, timestamp := some 0 }])) :=
  handleMessage_roundtrip [echoModule] "ping" 0 emptyCtx demoResp demoCtx
    (by rfl)

/-- C6 counterexample: registering a priority-50 module and then a
priority-10 module leaves the registry in registration order `[50, 10]`,
not ascending priority order — `registerModule` (lines 89-92 of `core.ts`)
only pushes and never re-sorts. -/
theorem registerModule_no_resort_counterexample :
    (registerModule (registerModule [] (stubModule "A" 50))
        (stubModule "B" 10)).map (fun m => m.priority) = [50, 10] ∧
      ¬ List.Pairwise (fun a b : Int => a ≤ b) [(50 : Int), 10] :=
  ⟨rfl, by decide⟩

/-- C6 (amended): `registerModule` appends without re-sorting, so after any
sequence of calls the registry is the prior registry with the module at the
back; ascending priority order is established only by the single sort that
`loadModules` performs after bulk registration. -/
theorem registerModule_appends :
    (∀ (registry : List RModule) (m : RModule),
        registerModule registry m = registry ++ [m]) ∧
    (∀ candidates : List ModuleCandidate,
        (loadModules candidates).Pairwise
          (fun a b => a.priority ≤ b.priority)) := by
  refine ⟨fun _ _ => rfl, fun candidates => ?_⟩
  unfold loadModules
  exact sortModules_pairwise _

/-- C7 counterexample: registering a second module named `"A"` is accepted
silently — the registry ends with both same-named modules and no error is
raised (`registerModule` cannot fail at all). -/
theorem duplicate_name_accepted_counterexample :
    (registerModule [stubModule "A" 1] (stubModule "A" 2)).map
        (fun m => m.name) = ["A", "A"] ∧
      (registerModule [stubModule "A" 1] (stubModule "A" 2)).length = 2 :=
  ⟨rfl, rfl⟩

/-- C7 (amended): registration performs no validation: a module whose name
duplicates a registered one is still appended unconditionally, and a
candidate with an invalid shape (e.g. a non-numeric priority) is merely
skipped by `loadModules` (with a logged warning), not rejected with an
error. -/
theorem registration_unvalidated :
    (∀ (registry : List RModule) (m : RModule),
        m.name ∈ registry.map (fun m' => m'.name) →
        registerModule registry m = registry ++ [m]) ∧
    (∀ (c : ModuleCandidate) (cs : List ModuleCandidate),
        isValidModule c.shape = false →
        loadModules (c :: cs) = loadModules cs) := by
  refine ⟨fun _ _ _ => rfl, ?_⟩
  intro c cs hv
  unfold loadModules
  rw [List.filter_cons_of_neg (by simp [hv])]

/-- Witness for C7's amended statement: a duplicate of `"A"` is appended
anyway, and the candidate with `priority` of the wrong runtime type is
silently dropped by the bulk load. -/
theorem registration_unvalidated_witness :
    registerModule [stubModule "A" 1] (stubModule "A" 3) =
        [stubModule "A" 1] ++ [stubModule "A" 3] ∧
      loadModules [badPriorityCandidate] = loadModules [] :=
  ⟨registration_unvalidated.1 [stubModule "A" 1] (stubModule "A" 3)
      (by simp [stubModule]),
    registration_unvalidated.2 badPriorityCandidate [] rfl⟩

/-- C8: the `canHandle` predicates of the concrete Trading, Help and AI
modules are pure functions of the message text alone: the context argument
never influences the returned boolean — so calling twice with identical
inputs yields the same boolean — and, being embedded as pure functions that
never write their `_context` parameter (exactly as in the source, where the
parameter is unused), they cannot mutate the context. -/
theorem canHandle_deterministic_pure (text : String)
    (c₁ c₂ : MessageContext) :
    TradingModule.canHandle text c₁ = TradingModule.canHandle text c₂ ∧
    HelpModule.canHandle text c₁ = HelpModule.canHandle text c₂ ∧
    AIModule.canHandle text c₁ = AIModule.canHandle text c₂ :=
  ⟨rfl, rfl, rfl⟩

/-- C9 counterexample: let the logger `warn` at line 185 of `core.ts` throw —
an error raised inside `handleMessage`, outside any module's
`canHandle`/`handle`, after the user message was appended.  The call does
return the fixed error string, but the history has also gained an assistant
entry (the fallback pushed at line 182, just before the fault reached the
outer catch) — so "the history gains only the user entry" is false. -/
theorem outer_catch_history_counterexample :
    (handleMessage faultFallbackWarn [] 0 "hi" emptyCtx).map
        (fun p => (p.1, p.2.history)) =
      .ok (coreErrorMessage,
        some [{ role := .user, content := "hi", timestamp := some 0 },
              { role := .assistant, content := fallbackMessage,
                timestamp := some 0 }]) ∧
      coreErrorMessage ≠ fallbackMessage :=
  ⟨rfl, by decide⟩

/-- C9 (amended): an error thrown inside the `try` outside any module call
reaches the outer catch from exactly two places, and in both cases
`handleMessage` returns the fixed error string — distinct from the no-match
fallback, and itself never appended to the history — rather than throwing.
(a) If the logging inside the per-module catch (`core.ts` lines 168-169)
throws while the catch is handling a module fault that preceded any
response append, no fallback is appended and the history gains only the
user entry, as the claim says.  (b) If the fallback bookkeeping (lines
184-185) throws, the fallback assistant entry pushed at line 182 is already
in the history, so the history gains the user entry and that assistant
entry.  (An error before the `try`, such as the `info` at line 116,
propagates to the caller instead.) -/
theorem outer_catch_error_string :
    (∀ (F : LogSite → Bool) (pre : List RModule) (m : RModule)
        (post : List RModule) (text : String) (now : Nat)
        (ctx : MessageContext),
        F .startTimerMessage = false → F .startTimerRouting = false →
        F .preLoopLog = false → F .routingEndTimer = false →
        F .routingLog = false → F .executionStartTimer = false →
        F .catchErrorLog = true →
        (∀ m' ∈ pre, m'.canHandle text (ctxPrepared ctx text now) =
          .ok false) →
        ((∃ e, m.canHandle text (ctxPrepared ctx text now) = .error e) ∨
          (m.canHandle text (ctxPrepared ctx text now) = .ok true ∧
            ∃ e, m.handle text (ctxPrepared ctx text now) = .error e)) →
        handleMessage F (pre ++ m :: post) now text ctx =
          .ok (coreErrorMessage, ctxPrepared ctx text now)) ∧
    (∀ (F : LogSite → Bool) (mods : List RModule) (text : String) (now : Nat)
        (ctx : MessageContext),
        LoopQuiet F →
        F .startTimerMessage = false → F .startTimerRouting = false →
        F .preLoopLog = false →
        (F .fallbackEndTimer || F .fallbackWarn) = true →
        (∀ m ∈ mods, m.canHandle text (ctxPrepared ctx text now) = .ok true →
            ∃ e, m.handle text (ctxPrepared ctx text now) = .error e) →
        handleMessage F mods now text ctx =
          .ok (coreErrorMessage,
            addToHistory (ctxPrepared ctx text now)
              { role := .assistant, content := fallbackMessage,
                timestamp := none } now)) ∧
    coreErrorMessage ≠ fallbackMessage := by
  refine ⟨?_, ?_, by decide⟩
  · intro F pre m post text now ctx hs1 hs2 hs3 h1 h2 h3 hcatch hpre hm
    exact handleMessage_escaped F (pre ++ m :: post) text now ctx _ hs1 hs2 hs3
      (scanModules_escape F h1 h2 h3 hcatch pre m post text now
        (ctxPrepared ctx text now) hpre hm)
  · intro F mods text now ctx hq hs1 hs2 hs3 hfb hdecl
    have hdecl' : ∀ m ∈ mods, Declines m text (ctxPrepared ctx text now) := by
      intro m hm
      cases hcc : m.canHandle text (ctxPrepared ctx text now) with
      | error e => exact Or.inl ⟨e, hcc⟩
      | ok b =>
        cases b with
        | false => exact Or.inr (Or.inl hcc)
        | true => exact Or.inr (Or.inr ⟨hcc, hdecl m hm hcc⟩)
    have hscan := scanModules_none F hq mods text now
      (ctxPrepared ctx text now) hdecl'
    unfold handleMessage
    simp [hs1, hs2, hs3, hscan, hfb]

/-- Witness for C9's amended statement: (a) the catch-block logging throws
while handling the broken predicate of the sole module — the error string
comes back and the history holds only the user entry; (b) the fallback
`warn` throws after the fallback append — the error string comes back with
the fallback entry present. -/
theorem outer_catch_error_string_witness :
    handleMessage faultCatchLog [brokenPredicateModule] 0 "hi" emptyCtx =
        .ok (coreErrorMessage, ctxPrepared emptyCtx "hi" 0) ∧
      handleMessage faultFallbackWarn [] 0 "boom" emptyCtx =
        .ok (coreErrorMessage,
          addToHistory (ctxPrepared emptyCtx "boom" 0)
            { role := .assistant, content := fallbackMessage,
              timestamp := none } 0) :=
  ⟨outer_catch_error_string.1 faultCatchLog [] brokenPredicateModule [] "hi" 0
      emptyCtx rfl rfl rfl rfl rfl rfl rfl
      (fun m' hm' => absurd hm' (List.not_mem_nil m'))
      (Or.inl ⟨"boom", rfl⟩),
    outer_catch_error_string.2.1 faultFallbackWarn [] "boom" 0 emptyCtx
      ⟨rfl, rfl, rfl, rfl, rfl, rfl, rfl⟩ rfl rfl rfl rfl
      (fun m hm => absurd hm (List.not_mem_nil m))⟩

/-- C10: a returning fault-free `handleMessage` call mutates at most
`history`, `core` and `logger`: the output context is the input context with
`core` and `logger` installed and a (created) `history`; `chatId`, `userId`,
`platform`, `correlationId`, `metadata` — all caller-supplied fields — are
untouched. -/
theorem handleMessage_frame (mods : List RModule) (text : String) (now : Nat)
    (ctx : MessageContext) (r : String) (ctx' : MessageContext)
    (h : handleMessage noFault mods now text ctx = .ok (r, ctx')) :
    ∃ hist, ctx' =
      { ctx with history := some hist, core := some (), logger := some () } := by
  rcases handleMessage_noFault_inv mods text now ctx r ctx' h with
    hscan | ⟨c, hscan, hr, hctx⟩
  · have hc' := scanModules_ok_ctx noFault noFault_loopQuiet mods text now _ r
      ctx' hscan
    subst hc'
    rw [addToHistory_eq, ctxPrepared_eq]
    exact ⟨_, rfl⟩
  · subst hctx
    have hc' := scanModules_none_ctx noFault noFault_loopQuiet mods text now _
      c hscan
    subst hc'
    rw [addToHistory_eq, ctxPrepared_eq]
    exact ⟨_, rfl⟩

/-- Witness for C10: the demonstration call only installed `core`/`logger`
and filled the history. -/
theorem handleMessage_frame_witness :
    demoCtx = { emptyCtx with
      history := demoCtx.history
      core := some ()
      logger := some () } := by
  obtain ⟨hist, hh⟩ := handleMessage_frame [echoModule] "ping" 0 emptyCtx
    demoResp demoCtx (by rfl)
  rw [hh]
